import Mathlib

/-!
Verification of the stream-source lifecycle and fan-out core of
shellus/tailexplorer (src/app.py), as a shallow embedding in Lean 4.

The embedding models, from the source:
* the per-source line buffer (`LogReader.logs`) and its append/truncate
  policy in the continuous read loop of `LogReader.start_reading`;
* the bounded initial-snapshot phase of `start_reading` (line cap 100,
  timeout cap 3, end-of-stream break);
* `LogReader.get_recent_logs` (Python slice `logs[-count:]`);
* `ConnectionManager.broadcast_to_source` (best-effort fan-out with
  removal of handles whose send raised);
* the registry-level subscribe / disconnect / delayed-cleanup logic of
  `websocket_endpoint` and `cleanup_reader_later`;
* the outbound message shapes (`initial_logs`, `new_log`, `error`, and
  the keepalive `pong` reply).

Process I/O is modelled by explicit event lists: each event is what one
`readline` (with or without timeout) returned.  Python `str.strip` is
modelled by `strip` below.
-/

namespace TailExplorer

/-- Python `str.strip()`: remove leading and trailing whitespace.
Written on the character list so that it evaluates by kernel reduction. -/
def strip (s : String) : String :=
  ⟨((s.data.dropWhile Char.isWhitespace).reverse.dropWhile Char.isWhitespace).reverse⟩

/-- One result of `await asyncio.wait_for(stdout.readline(), timeout=2.0)`
in the snapshot phase: a timeout, end-of-stream (empty read), or a line. -/
inductive ReadEvent where
  | timeout
  | eof
  | line (s : String)
deriving DecidableEq, Repr

/-- One result of `await stdout.readline()` in the continuous loop:
either the loop breaks (process exited, empty read, read error, or
`running` was cleared) or a line arrives. -/
inductive ContEvent where
  | exit
  | line (s : String)
deriving DecidableEq, Repr

/-- An outbound message sent toward a subscriber handle, one constructor
per JSON `type` value produced in src/app.py. -/
inductive OutMsg where
  | initialLogs (logs : List String) (sourceId : String)
  | newLog (log : String) (sourceId : String)
  | error (message : String) (sourceId : String)
  | pong
deriving DecidableEq, Repr

/-- The JSON `type` field of an outbound message. -/
def OutMsg.msgType : OutMsg → String
  | .initialLogs _ _ => "initial_logs"
  | .newLog _ _ => "new_log"
  | .error _ _ => "error"
  | .pong => "pong"

/-- Python slice `xs[-k:]`: for `k = 0` it is `xs[0:]`, the whole list;
for `k > 0` it is the last `min k (len xs)` elements. -/
def pySliceLast (k : Nat) (xs : List String) : List String :=
  if k = 0 then xs else xs.drop (xs.length - k)

/-- State of the snapshot phase of `LogReader.start_reading`
(lines 199-220 of src/app.py): `initial_logs`, `self.logs`,
`line_count`, `timeout_count`. -/
structure SnapState where
  initialLogs : List String
  logs : List String
  lineCount : Nat
  timeoutCount : Nat
deriving DecidableEq, Repr

/-- Why the snapshot loop stopped: line cap reached, timeout cap
reached, end-of-stream break, or the event list ran out while the
loop guard still held. -/
inductive SnapStop where
  | lineCap
  | timeoutCap
  | eofHit
  | drained
deriving DecidableEq, Repr

/-- The snapshot loop of `start_reading`:
`while line_count < max_initial_lines and timeout_count < max_timeouts`,
reading with a 2s timeout; empty read breaks; a line is decoded and
stripped and, when non-empty, appended to both `initial_logs` and
`self.logs` (with NO truncation in this phase). -/
def snapshotPhase (maxInit maxTo : Nat) : List ReadEvent → SnapState → SnapState × SnapStop
  | evs, st =>
    if maxInit ≤ st.lineCount then (st, .lineCap)
    else if maxTo ≤ st.timeoutCount then (st, .timeoutCap)
    else
      match evs with
      | [] => (st, .drained)
      | .timeout :: rest =>
        snapshotPhase maxInit maxTo rest { st with timeoutCount := st.timeoutCount + 1 }
      | .eof :: _ => (st, .eofHit)
      | .line s :: rest =>
        let t := strip s
        if t = "" then snapshotPhase maxInit maxTo rest st
        else
          snapshotPhase maxInit maxTo rest
            { st with initialLogs := st.initialLogs ++ [t], logs := st.logs ++ [t],
                      lineCount := st.lineCount + 1 }

/-- One append in the continuous read loop (lines 246-253 of
src/app.py): `self.logs.append(log_line)` followed by
`if len(self.logs) > self.max_lines: self.logs = self.logs[-self.cleanup_threshold:]`. -/
def contAppend (max_lines cleanup_threshold : Nat) (logs : List String) (t : String) :
    List String :=
  let logs' := logs ++ [t]
  if max_lines < logs'.length then pySliceLast cleanup_threshold logs' else logs'

/-- The continuous read loop of `start_reading` (lines 235-263):
per event, a break condition ends the loop; a line is stripped and, when
non-empty, appended (with truncation) and broadcast as a `new_log`
message.  Returns the final buffer and the broadcast messages in order. -/
def contLoop (max_lines cleanup_threshold : Nat) (srcId : String) :
    List ContEvent → List String → List String × List OutMsg
  | [], logs => (logs, [])
  | .exit :: _, logs => (logs, [])
  | .line s :: rest, logs =>
    let t := strip s
    if t = "" then contLoop max_lines cleanup_threshold srcId rest logs
    else
      let r := contLoop max_lines cleanup_threshold srcId rest
        (contAppend max_lines cleanup_threshold logs t)
      (r.1, OutMsg.newLog t srcId :: r.2)

/-- Observable outcome of one `start_reading` call: the final buffer,
the final `running` flag, and the messages broadcast, in order. -/
structure RunResult where
  logs : List String
  running : Bool
  msgs : List OutMsg
deriving DecidableEq, Repr

/-- Snapshot-phase entry state: `initial_logs = []`, `line_count = 0`,
`timeout_count = 0`, and whatever `self.logs` already holds (non-empty
when the same `LogReader` is restarted after a grace-period resubscribe). -/
def snapStart (logs0 : List String) : SnapState :=
  { initialLogs := [], logs := logs0, lineCount := 0, timeoutCount := 0 }

/-- `LogReader.start_reading` as a function of the spawn outcome and the
two phases' read events.  On spawn failure the except-branch broadcasts a
single error message; otherwise the snapshot phase runs, one
`initial_logs` message is broadcast (even when empty), and the
continuous loop follows.  The finally-branch clears `running`. -/
def start_reading (spawnOk : Bool) (snapEvs : List ReadEvent) (contEvs : List ContEvent)
    (logs0 : List String) (max_lines cleanup_threshold : Nat) (srcId errText : String) :
    RunResult :=
  if spawnOk then
    let st := (snapshotPhase 100 3 snapEvs (snapStart logs0)).1
    let r := contLoop max_lines cleanup_threshold srcId contEvs st.logs
    { logs := r.1, running := false,
      msgs := OutMsg.initialLogs st.initialLogs srcId :: r.2 }
  else
    { logs := logs0, running := false,
      msgs := [OutMsg.error ("无法读取日志: " ++ errText) srcId] }

/-- `LogReader.get_recent_logs`: `self.logs[-count:] if self.logs else []`. -/
def get_recent_logs (logs : List String) (count : Nat) : List String :=
  if logs = [] then [] else pySliceLast count logs

/-- What `websocket_endpoint` sends to a subscriber that attaches while
the reader is already running (lines 493-500 of src/app.py):
`recent_logs = reader.get_recent_logs(100)`, and an `initial_logs`
message only `if recent_logs` is non-empty. -/
def lateSubscriberMsgs (logs : List String) (srcId : String) : List OutMsg :=
  let recent := get_recent_logs logs 100
  if recent = [] then [] else [OutMsg.initialLogs recent srcId]

/-- The subscriber inbound loop body (lines 505-511): the parsed `type`
field of a client message, when it is `"ping"`, is answered with a
`pong` message; everything else (other types, parse failures) sends
nothing. -/
def inboundReply (parsedType : Option String) : Option OutMsg :=
  match parsedType with
  | some t => if t = "ping" then some OutMsg.pong else none
  | none => none

/-- The for-loop of `ConnectionManager.broadcast_to_source` over a copy
of the connection set: handles are modelled as `Nat` ids, `fails h`
says whether `send_text` raises on handle `h`.  Returns the handles
delivered to and the `disconnected` set, in iteration order. -/
def broadcastLoop (fails : Nat → Bool) : List Nat → List Nat × List Nat
  | [] => ([], [])
  | h :: rest =>
    let r := broadcastLoop fails rest
    if fails h then (r.1, h :: r.2) else (h :: r.1, r.2)

/-- `ConnectionManager.broadcast_to_source` (lines 130-151): sends to
every handle in a copy of the set, collects the handles whose send
raised, then discards exactly those from the live set.  Returns
(delivered, remaining). -/
def broadcast_to_source (fails : Nat → Bool) (conns : List Nat) : List Nat × List Nat :=
  let r := broadcastLoop fails conns
  (r.1, conns.filter (fun h => !(r.2.contains h)))

/-- The per-source `LogReader` entry of `active_readers` as seen by the
registry-level logic: its `running` flag and its `logs` buffer. -/
structure RegReader where
  running : Bool
  logs : List String
deriving DecidableEq, Repr

/-- Registry-level state for one source: the `active_readers` entry (if
any), the connection count, and two counters — `readerGen` counts
`LogReader(...)` constructions and `startAttempts` counts
`asyncio.create_subprocess_exec` attempts. -/
structure Registry where
  reader : Option RegReader
  conns : Nat
  readerGen : Nat
  startAttempts : Nat
deriving DecidableEq, Repr

/-- The empty registry state for one source. -/
def reg0 : Registry := { reader := none, conns := 0, readerGen := 0, startAttempts := 0 }

/-- Registry-level operations: a websocket connects (with the given
spawn outcome if a start is triggered), a websocket disconnects, or the
delayed `cleanup_reader_later` task fires after the 30s grace period. -/
inductive RegOp where
  | connect (spawnOk : Bool)
  | disconnect
  | cleanupFire
deriving DecidableEq, Repr

/-- One registry-level step, from `websocket_endpoint` (lines 481-525)
and `cleanup_reader_later` (lines 318-324):
* connect: `connection_manager.connect`; create the `LogReader` if
  absent; if it is not running, `start_reading` is launched, which
  attempts a spawn and sets `running` accordingly;
* disconnect: if no connections remain, `stop_reading` clears `running`
  (terminating the process) and schedules delayed cleanup;
* cleanupFire: after the grace delay, the reader entry is deleted only
  if there are still no connections and it is not running. -/
def regStep (reg : Registry) : RegOp → Registry
  | .connect spawnOk =>
    let conns := reg.conns + 1
    match reg.reader with
    | none =>
      { reg with conns := conns, reader := some { running := spawnOk, logs := [] },
                 readerGen := reg.readerGen + 1, startAttempts := reg.startAttempts + 1 }
    | some r =>
      if r.running then { reg with conns := conns }
      else
        { reg with conns := conns, reader := some { r with running := spawnOk },
                   startAttempts := reg.startAttempts + 1 }
  | .disconnect =>
    let conns := reg.conns - 1
    if conns = 0 then
      match reg.reader with
      | some r => { reg with conns := conns, reader := some { r with running := false } }
      | none => { reg with conns := conns }
    else { reg with conns := conns }
  | .cleanupFire =>
    match reg.reader with
    | some r =>
      if reg.conns = 0 ∧ r.running = false then { reg with reader := none } else reg
    | none => reg

/-- Run a sequence of registry-level operations from a state. -/
def regRun (reg : Registry) (ops : List RegOp) : Registry := ops.foldl regStep reg

/-! ## Helper lemmas -/

theorem contAppend_length_le (mL cT : Nat) (logs : List String) (t : String)
    (h1 : 0 < cT) (h2 : cT ≤ mL) (_h3 : logs.length ≤ mL) :
    (contAppend mL cT logs t).length ≤ mL := by
  simp only [contAppend, pySliceLast]
  split
  · split
    · omega
    · rw [List.length_drop]
      simp only [List.length_append, List.length_cons, List.length_nil]
      omega
  · simp only [List.length_append, List.length_cons, List.length_nil] at *
    omega

theorem contLoop_length_le (mL cT : Nat) (src : String) (evs : List ContEvent)
    (logs : List String) (h1 : 0 < cT) (h2 : cT ≤ mL) (h3 : logs.length ≤ mL) :
    (contLoop mL cT src evs logs).1.length ≤ mL := by
  induction evs generalizing logs with
  | nil => simpa [contLoop] using h3
  | cons e rest ih =>
    cases e with
    | exit => simpa [contLoop] using h3
    | line s =>
      by_cases hs : strip s = ""
      · simpa [contLoop, hs] using ih logs h3
      · simpa [contLoop, hs] using
          ih (contAppend mL cT logs (strip s)) (contAppend_length_le mL cT logs (strip s) h1 h2 h3)

theorem recent_logs_len_suffix (logs : List String) (n : Nat) (h : 1 ≤ n) :
    (get_recent_logs logs n).length = min n logs.length ∧
    List.IsSuffix (get_recent_logs logs n) logs ∧
    (logs.length ≤ n → get_recent_logs logs n = logs) := by
  simp only [get_recent_logs, pySliceLast]
  by_cases hl : logs = []
  · subst hl; simp
  · rw [if_neg hl, if_neg (by omega)]
    refine ⟨?_, ?_, ?_⟩
    · rw [List.length_drop]; omega
    · exact ⟨logs.take (logs.length - n), List.take_append_drop _ _⟩
    · intro hle
      rw [Nat.sub_eq_zero_of_le hle, List.drop_zero]

theorem broadcastLoop_eq (fails : Nat → Bool) (conns : List Nat) :
    (broadcastLoop fails conns).1 = conns.filter (fun h => !(fails h)) ∧
    (broadcastLoop fails conns).2 = conns.filter (fun h => fails h) := by
  induction conns with
  | nil => simp [broadcastLoop]
  | cons h rest ih =>
    cases hf : fails h with
    | true => simp [broadcastLoop, hf, List.filter_cons, ih.1, ih.2]
    | false => simp [broadcastLoop, hf, List.filter_cons, ih.1, ih.2]

theorem snapshotPhase_counts_le (mi mt : Nat) (evs : List ReadEvent) (st : SnapState)
    (h1 : st.lineCount ≤ mi) (h2 : st.timeoutCount ≤ mt) :
    (snapshotPhase mi mt evs st).1.lineCount ≤ mi ∧
    (snapshotPhase mi mt evs st).1.timeoutCount ≤ mt := by
  induction evs generalizing st with
  | nil =>
    simp only [snapshotPhase]
    split
    · exact ⟨h1, h2⟩
    · split
      · exact ⟨h1, h2⟩
      · exact ⟨h1, h2⟩
  | cons e rest ih =>
    cases e with
    | timeout =>
      simp only [snapshotPhase]
      split
      · exact ⟨h1, h2⟩
      · split
        · exact ⟨h1, h2⟩
        · rename_i hlc htc
          exact ih _ h1 (show st.timeoutCount + 1 ≤ mt by omega)
    | eof =>
      simp only [snapshotPhase]
      split
      · exact ⟨h1, h2⟩
      · split
        · exact ⟨h1, h2⟩
        · exact ⟨h1, h2⟩
    | line s =>
      simp only [snapshotPhase]
      split
      · exact ⟨h1, h2⟩
      · split
        · exact ⟨h1, h2⟩
        · rename_i hlc htc
          by_cases hs : strip s = ""
          · simpa [hs] using ih st h1 h2
          · simpa [hs] using
              ih { st with initialLogs := st.initialLogs ++ [strip s],
                           logs := st.logs ++ [strip s], lineCount := st.lineCount + 1 }
                (show st.lineCount + 1 ≤ mi by omega) h2

theorem snapshotPhase_stop_reason (mi mt : Nat) (evs : List ReadEvent) (st : SnapState)
    (h1 : st.lineCount ≤ mi) (h2 : st.timeoutCount ≤ mt) :
    ((snapshotPhase mi mt evs st).2 = SnapStop.lineCap →
      (snapshotPhase mi mt evs st).1.lineCount = mi) ∧
    ((snapshotPhase mi mt evs st).2 = SnapStop.timeoutCap →
      (snapshotPhase mi mt evs st).1.timeoutCount = mt) := by
  induction evs generalizing st with
  | nil =>
    simp only [snapshotPhase]
    split
    · rename_i hlc
      exact ⟨fun _ => show st.lineCount = mi by omega, fun hcap => SnapStop.noConfusion hcap⟩
    · split
      · rename_i htc
        exact ⟨fun hcap => SnapStop.noConfusion hcap, fun _ => show st.timeoutCount = mt by omega⟩
      · exact ⟨fun hcap => SnapStop.noConfusion hcap, fun hcap => SnapStop.noConfusion hcap⟩
  | cons e rest ih =>
    cases e with
    | timeout =>
      simp only [snapshotPhase]
      split
      · rename_i hlc
        exact ⟨fun _ => show st.lineCount = mi by omega, fun hcap => SnapStop.noConfusion hcap⟩
      · split
        · rename_i htc
          exact ⟨fun hcap => SnapStop.noConfusion hcap,
            fun _ => show st.timeoutCount = mt by omega⟩
        · rename_i hlc htc
          exact ih _ h1 (show st.timeoutCount + 1 ≤ mt by omega)
    | eof =>
      simp only [snapshotPhase]
      split
      · rename_i hlc
        exact ⟨fun _ => show st.lineCount = mi by omega, fun hcap => SnapStop.noConfusion hcap⟩
      · split
        · rename_i htc
          exact ⟨fun hcap => SnapStop.noConfusion hcap,
            fun _ => show st.timeoutCount = mt by omega⟩
        · exact ⟨fun hcap => SnapStop.noConfusion hcap, fun hcap => SnapStop.noConfusion hcap⟩
    | line s =>
      simp only [snapshotPhase]
      split
      · rename_i hlc
        exact ⟨fun _ => show st.lineCount = mi by omega, fun hcap => SnapStop.noConfusion hcap⟩
      · split
        · rename_i htc
          exact ⟨fun hcap => SnapStop.noConfusion hcap,
            fun _ => show st.timeoutCount = mt by omega⟩
        · rename_i hlc htc
          by_cases hs : strip s = ""
          · simpa [hs] using ih st h1 h2
          · simpa [hs] using
              ih { st with initialLogs := st.initialLogs ++ [strip s],
                           logs := st.logs ++ [strip s], lineCount := st.lineCount + 1 }
                (show st.lineCount + 1 ≤ mi by omega) h2

theorem contLoop_msgs_shape (mL cT : Nat) (src : String) (evs : List ContEvent)
    (logs : List String) :
    ∀ m ∈ (contLoop mL cT src evs logs).2, ∃ t, t ≠ "" ∧ m = OutMsg.newLog t src := by
  induction evs generalizing logs with
  | nil => simp [contLoop]
  | cons e rest ih =>
    cases e with
    | exit => simp [contLoop]
    | line s =>
      by_cases hs : strip s = ""
      · simpa [contLoop, hs] using ih logs
      · intro m hm
        simp only [contLoop, hs, if_neg, ite_false] at hm
        rcases List.mem_cons.mp hm with hm | hm
        · exact ⟨strip s, hs, hm⟩
        · exact ih _ m hm

theorem contAppend_mem (mL cT : Nat) (logs : List String) (t : String) :
    ∀ l ∈ contAppend mL cT logs t, l ∈ logs ∨ l = t := by
  intro l hl
  have hmem : l ∈ logs ++ [t] := by
    simp only [contAppend, pySliceLast] at hl
    split at hl
    · split at hl
      · exact hl
      · exact List.mem_of_mem_drop hl
    · exact hl
  rcases List.mem_append.mp hmem with h | h
  · exact Or.inl h
  · exact Or.inr (List.mem_singleton.mp h)

theorem snapshotPhase_nonempty (mi mt : Nat) (evs : List ReadEvent) (st : SnapState)
    (hl : ∀ l ∈ st.logs, l ≠ "") (hi : ∀ l ∈ st.initialLogs, l ≠ "") :
    (∀ l ∈ (snapshotPhase mi mt evs st).1.logs, l ≠ "") ∧
    (∀ l ∈ (snapshotPhase mi mt evs st).1.initialLogs, l ≠ "") := by
  induction evs generalizing st with
  | nil =>
    simp only [snapshotPhase]
    split
    · exact ⟨hl, hi⟩
    · split
      · exact ⟨hl, hi⟩
      · exact ⟨hl, hi⟩
  | cons e rest ih =>
    cases e with
    | timeout =>
      simp only [snapshotPhase]
      split
      · exact ⟨hl, hi⟩
      · split
        · exact ⟨hl, hi⟩
        · exact ih _ hl hi
    | eof =>
      simp only [snapshotPhase]
      split
      · exact ⟨hl, hi⟩
      · split
        · exact ⟨hl, hi⟩
        · exact ⟨hl, hi⟩
    | line s =>
      simp only [snapshotPhase]
      split
      · exact ⟨hl, hi⟩
      · split
        · exact ⟨hl, hi⟩
        · by_cases hs : strip s = ""
          · simpa [hs] using ih st hl hi
          · simp only [hs, ite_false]
            apply ih
            · intro l hmem
              rcases List.mem_append.mp hmem with h | h
              · exact hl l h
              · rw [List.mem_singleton.mp h]; exact hs
            · intro l hmem
              rcases List.mem_append.mp hmem with h | h
              · exact hi l h
              · rw [List.mem_singleton.mp h]; exact hs

theorem contLoop_logs_nonempty (mL cT : Nat) (src : String) (evs : List ContEvent)
    (logs : List String) (hl : ∀ l ∈ logs, l ≠ "") :
    ∀ l ∈ (contLoop mL cT src evs logs).1, l ≠ "" := by
  induction evs generalizing logs with
  | nil => simpa [contLoop]
  | cons e rest ih =>
    cases e with
    | exit => simpa [contLoop]
    | line s =>
      by_cases hs : strip s = ""
      · simpa [contLoop, hs] using ih logs hl
      · simp only [contLoop, hs, ite_false]
        apply ih
        intro l hmem
        rcases contAppend_mem mL cT logs (strip s) l hmem with h | h
        · exact hl l h
        · rw [h]; exact hs

/-! ## Claims -/

/-- C1 counterexample: with `maxLines = 5, cleanupThreshold = 2` (the
very configuration of the spec's own scenario), six non-empty lines read
during the initial-snapshot phase leave the buffer at length 6 > 5: the
snapshot phase of `start_reading` appends without ever truncating, so
`len(buffer) ≤ maxLines` does NOT hold after every append. -/
theorem snapshot_append_exceeds_max_lines :
    (start_reading true [ReadEvent.line "1", ReadEvent.line "2", ReadEvent.line "3",
        ReadEvent.line "4", ReadEvent.line "5", ReadEvent.line "6"] [] [] 5 2 "s" "e").logs
      = ["1", "2", "3", "4", "5", "6"] ∧
    ¬ ((start_reading true [ReadEvent.line "1", ReadEvent.line "2", ReadEvent.line "3",
        ReadEvent.line "4", ReadEvent.line "5", ReadEvent.line "6"] [] [] 5 2 "s" "e").logs.length
        ≤ 5) := by
  decide

/-- C1 (amended): in the continuous read loop the invariant holds —
provided `0 < cleanupThreshold ≤ maxLines` and the loop is entered with
`len(buffer) ≤ maxLines`, every single append leaves the length
`≤ maxLines`, and so does the whole loop; the snapshot phase, however,
appends without truncation and can exceed `maxLines`. -/
theorem continuous_append_preserves_max_lines (mL cT : Nat) (src : String)
    (evs : List ContEvent) (logs : List String)
    (h1 : 0 < cT) (h2 : cT ≤ mL) (h3 : logs.length ≤ mL) :
    (∀ logs2 t, logs2.length ≤ mL → (contAppend mL cT logs2 t).length ≤ mL) ∧
    (contLoop mL cT src evs logs).1.length ≤ mL :=
  ⟨fun logs2 t h => contAppend_length_le mL cT logs2 t h1 h2 h,
   contLoop_length_le mL cT src evs logs h1 h2 h3⟩

/-- C1 witness: the amended invariant at `maxLines = 5`,
`cleanupThreshold = 2`, entry buffer `["a"]`, one incoming line. -/
theorem continuous_append_preserves_max_lines_witness :
    ((0 : Nat) < 2 ∧ 2 ≤ 5 ∧ (["a"] : List String).length ≤ 5) ∧
    ((∀ logs2 t, logs2.length ≤ 5 → (contAppend 5 2 logs2 t).length ≤ 5) ∧
     (contLoop 5 2 "s" [ContEvent.line "b"] ["a"]).1.length ≤ 5) :=
  ⟨⟨by decide, by decide, by decide⟩,
   continuous_append_preserves_max_lines 5 2 "s" [ContEvent.line "b"] ["a"]
     (by decide) (by decide) (by decide)⟩

/-- C2: one append in the continuous read loop.  If the new length
exceeds `maxLines`, the buffer becomes exactly the last
`cleanupThreshold` elements of `old ++ [line]` (a suffix: oldest
discarded, order preserved) and its length is exactly
`cleanupThreshold`; if the new length is at or below `maxLines`, the
buffer is exactly `old ++ [line]` (no truncation).  Holds under the
spec's configuration constraint `0 < cleanupThreshold < maxLines`. -/
theorem append_overflow_truncates (mL cT : Nat) (logs : List String) (t : String)
    (h1 : 0 < cT) (h2 : cT < mL) :
    (mL < logs.length + 1 →
      contAppend mL cT logs t = (logs ++ [t]).drop (logs.length + 1 - cT) ∧
      (contAppend mL cT logs t).length = cT) ∧
    (logs.length + 1 ≤ mL → contAppend mL cT logs t = logs ++ [t]) := by
  have hlen : (logs ++ [t]).length = logs.length + 1 := by simp
  constructor
  · intro hov
    have he : contAppend mL cT logs t = (logs ++ [t]).drop (logs.length + 1 - cT) := by
      simp only [contAppend, pySliceLast, hlen]
      rw [if_pos hov, if_neg (by omega)]
    refine ⟨he, ?_⟩
    rw [he, List.length_drop, hlen]
    omega
  · intro hle
    simp only [contAppend, pySliceLast, hlen]
    rw [if_neg (by omega)]

/-- C2 witness: the spec's own scenario, `maxLines = 5`,
`cleanupThreshold = 2`: appending `"6"` to `["1",...,"5"]` overflows and
truncates to the last two lines; appending `"7"` to `["5","6"]` does
not truncate. -/
theorem append_overflow_truncates_witness :
    ((0 : Nat) < 2 ∧ 2 < 5) ∧
    (contAppend 5 2 ["1", "2", "3", "4", "5"] "6"
        = (["1", "2", "3", "4", "5"] ++ ["6"]).drop ((["1", "2", "3", "4", "5"] : List String).length + 1 - 2) ∧
      (contAppend 5 2 ["1", "2", "3", "4", "5"] "6").length = 2) ∧
    contAppend 5 2 ["5", "6"] "7" = ["5", "6"] ++ ["7"] :=
  ⟨⟨by decide, by decide⟩,
   (append_overflow_truncates 5 2 ["1", "2", "3", "4", "5"] "6" (by decide) (by decide)).1
     (by decide),
   (append_overflow_truncates 5 2 ["5", "6"] "7" (by decide) (by decide)).2 (by decide)⟩

/-- C3 counterexample: `get_recent_logs` models the Python slice
`self.logs[-count:]`, and for `count = 0` that slice is the WHOLE list:
`Recent(0)` on the one-line buffer `["a"]` returns one line, more than
`min(0, 1) = 0`. -/
theorem recent_zero_returns_all :
    get_recent_logs ["a"] 0 = ["a"] ∧
    ¬ ((get_recent_logs ["a"] 0).length ≤ min 0 (["a"] : List String).length) := by
  decide

/-- C3 (amended): for every requested count `n ≥ 1`, `get_recent_logs`
returns exactly `min n (len buffer)` lines, they form a suffix of the
buffer (last lines, original relative order), and when the buffer has at
most `n` lines the whole buffer is returned; being a total function it
never blocks and never fails.  For `n = 0`, however, the Python slice
`logs[-0:]` returns the entire buffer. -/
theorem get_recent_logs_bound (logs : List String) (n : Nat) (h : 1 ≤ n) :
    (get_recent_logs logs n).length = min n logs.length ∧
    List.IsSuffix (get_recent_logs logs n) logs ∧
    (logs.length ≤ n → get_recent_logs logs n = logs) :=
  recent_logs_len_suffix logs n h

/-- C3 witness: `n = 2` on the three-line buffer. -/
theorem get_recent_logs_bound_witness :
    1 ≤ 2 ∧
    ((get_recent_logs ["a", "b", "c"] 2).length = min 2 (["a", "b", "c"] : List String).length ∧
     List.IsSuffix (get_recent_logs ["a", "b", "c"] 2) ["a", "b", "c"] ∧
     ((["a", "b", "c"] : List String).length ≤ 2 →
       get_recent_logs ["a", "b", "c"] 2 = ["a", "b", "c"])) :=
  ⟨by decide, get_recent_logs_bound ["a", "b", "c"] 2 (by decide)⟩

/-- C4: `broadcast_to_source` delivers to exactly the attached handles
whose send does not raise (so a failure on one handle aborts nothing
else and every handle is attempted: each attached handle ends up either
delivered-to or in the disconnected set), and afterwards the connection
set holds exactly the handles that did not fail — precisely the failed
ones were removed.  The function is total: no error propagates to the
caller. -/
theorem broadcast_best_effort (fails : Nat → Bool) (conns : List Nat) :
    (broadcast_to_source fails conns).1 = conns.filter (fun h => !(fails h)) ∧
    (broadcastLoop fails conns).2 = conns.filter (fun h => fails h) ∧
    (broadcast_to_source fails conns).2 = conns.filter (fun h => !(fails h)) := by
  obtain ⟨h1, h2⟩ := broadcastLoop_eq fails conns
  refine ⟨h1, h2, ?_⟩
  show conns.filter (fun h => !((broadcastLoop fails conns).2.contains h))
      = conns.filter (fun h => !(fails h))
  rw [h2]
  apply List.filter_congr
  intro x hx
  cases hf : fails x with
  | true => simp [List.contains, List.mem_filter, hx, hf]
  | false => simp [List.contains, List.mem_filter, hf]

/-- C5 counterexample: the operation sequence Subscribe, last
Unsubscribe, Subscribe-again within the grace period (the delayed
cleanup has not fired) performs TWO `create_subprocess_exec` start
attempts, not one: `stop_reading` terminated the process at the last
unsubscribe, and the resubscribe finds `running == False` and launches
`start_reading` again, which spawns a fresh process. -/
theorem resubscribe_respawns_process :
    (regRun reg0 [RegOp.connect true, RegOp.disconnect, RegOp.connect true]).startAttempts = 2 ∧
    (regRun reg0 [RegOp.connect true, RegOp.disconnect, RegOp.connect true]).startAttempts ≠ 1 := by
  decide

/-- C5 (amended): across Subscribe → last Unsubscribe → Subscribe
within the grace period, exactly one `LogReader` instance exists
(`readerGen = 1`) and its buffer is reused — a connect step never
discards the buffered lines or recreates the reader when one is present
— but the process is spawned twice (`startAttempts = 2`): the process
is terminated at the last unsubscribe and respawned at resubscribe. -/
theorem resubscribe_single_reader :
    (regRun reg0 [RegOp.connect true, RegOp.disconnect, RegOp.connect true]).readerGen = 1 ∧
    (regRun reg0 [RegOp.connect true, RegOp.disconnect, RegOp.connect true]).startAttempts = 2 ∧
    (regRun reg0 [RegOp.connect true, RegOp.disconnect, RegOp.connect true]).reader
      = some { running := true, logs := [] } ∧
    (∀ reg r spawnOk, reg.reader = some r →
      ∃ r2, (regStep reg (RegOp.connect spawnOk)).reader = some r2 ∧ r2.logs = r.logs ∧
        (regStep reg (RegOp.connect spawnOk)).readerGen = reg.readerGen) := by
  refine ⟨by decide, by decide, by decide, ?_⟩
  intro reg r spawnOk hr
  cases hrun : r.running with
  | true => exact ⟨r, by simp [regStep, hr, hrun], rfl, by simp [regStep, hr, hrun]⟩
  | false =>
    exact ⟨{ r with running := spawnOk }, by simp [regStep, hr, hrun], rfl,
      by simp [regStep, hr, hrun]⟩

/-- C5 witness: the buffer-reuse conjunct at a concrete registry state
holding a stopped reader with one buffered line. -/
theorem resubscribe_single_reader_witness :
    (Registry.mk (some (RegReader.mk false ["x"])) 0 1 1).reader
      = some (RegReader.mk false ["x"]) ∧
    ∃ r2, (regStep (Registry.mk (some (RegReader.mk false ["x"])) 0 1 1)
        (RegOp.connect true)).reader = some r2 ∧
      r2.logs = ["x"] ∧
      (regStep (Registry.mk (some (RegReader.mk false ["x"])) 0 1 1)
        (RegOp.connect true)).readerGen = 1 :=
  ⟨rfl, resubscribe_single_reader.2.2.2
    (Registry.mk (some (RegReader.mk false ["x"])) 0 1 1) (RegReader.mk false ["x"]) true rfl⟩

/-- C6: the snapshot phase is bounded — it never collects more than 100
lines nor counts more than 3 timeouts, and when it stops for the line
cap (resp. the timeout cap) it has collected exactly 100 lines (resp.
counted exactly 3 timeouts); an `eof` event stops it immediately.  After
the phase, the whole run broadcasts exactly one `initial_logs` message,
carrying exactly the snapshot lines — for every input, including those
yielding an empty snapshot. -/
theorem snapshot_bounded_one_initial_msg (snapEvs : List ReadEvent)
    (contEvs : List ContEvent) (logs0 : List String) (mL cT : Nat) (src err : String) :
    (snapshotPhase 100 3 snapEvs (snapStart logs0)).1.lineCount ≤ 100 ∧
    (snapshotPhase 100 3 snapEvs (snapStart logs0)).1.timeoutCount ≤ 3 ∧
    ((snapshotPhase 100 3 snapEvs (snapStart logs0)).2 = SnapStop.lineCap →
      (snapshotPhase 100 3 snapEvs (snapStart logs0)).1.lineCount = 100) ∧
    ((snapshotPhase 100 3 snapEvs (snapStart logs0)).2 = SnapStop.timeoutCap →
      (snapshotPhase 100 3 snapEvs (snapStart logs0)).1.timeoutCount = 3) ∧
    (start_reading true snapEvs contEvs logs0 mL cT src err).msgs.filter
        (fun m => m.msgType == "initial_logs")
      = [OutMsg.initialLogs (snapshotPhase 100 3 snapEvs (snapStart logs0)).1.initialLogs
          src] := by
  have hb := snapshotPhase_counts_le 100 3 snapEvs (snapStart logs0)
    (Nat.zero_le 100) (Nat.zero_le 3)
  have hr := snapshotPhase_stop_reason 100 3 snapEvs (snapStart logs0)
    (Nat.zero_le 100) (Nat.zero_le 3)
  refine ⟨hb.1, hb.2, hr.1, hr.2, ?_⟩
  show (OutMsg.initialLogs (snapshotPhase 100 3 snapEvs (snapStart logs0)).1.initialLogs src
      :: (contLoop mL cT src contEvs
          (snapshotPhase 100 3 snapEvs (snapStart logs0)).1.logs).2).filter
      (fun m => m.msgType == "initial_logs") = _
  rw [List.filter_cons_of_pos (by simp [OutMsg.msgType]),
    List.filter_eq_nil_iff.mpr]
  intro m hm
  obtain ⟨t, _, hshape⟩ := contLoop_msgs_shape mL cT src contEvs
    (snapshotPhase 100 3 snapEvs (snapStart logs0)).1.logs m hm
  subst hshape
  simp [OutMsg.msgType]

/-- C6 witness: three consecutive timeouts on a silent source stop the
snapshot at the timeout cap with exactly 3 timeouts counted, and the run
still broadcasts exactly one (empty) `initial_logs` message. -/
theorem snapshot_bounded_one_initial_msg_witness :
    (snapshotPhase 100 3 [ReadEvent.timeout, ReadEvent.timeout, ReadEvent.timeout]
        (snapStart [])).2 = SnapStop.timeoutCap ∧
    (snapshotPhase 100 3 [ReadEvent.timeout, ReadEvent.timeout, ReadEvent.timeout]
        (snapStart [])).1.timeoutCount = 3 ∧
    (start_reading true [ReadEvent.timeout, ReadEvent.timeout, ReadEvent.timeout] [] [] 5 2
        "s" "e").msgs.filter (fun m => m.msgType == "initial_logs")
      = [OutMsg.initialLogs [] "s"] := by
  have h := snapshot_bounded_one_initial_msg
    [ReadEvent.timeout, ReadEvent.timeout, ReadEvent.timeout] [] [] 5 2 "s" "e"
  refine ⟨by decide, h.2.2.2.1 (by decide), ?_⟩
  have he : (snapshotPhase 100 3 [ReadEvent.timeout, ReadEvent.timeout, ReadEvent.timeout]
      (snapStart [])).1.initialLogs = ([] : List String) := by decide
  have h5 := h.2.2.2.2
  rw [he] at h5
  exact h5

/-- C7 counterexample: a late subscriber to a running reader with an
EMPTY buffer is sent NO message at all (the code guards the send with
`if recent_logs:`), and with a 101-line buffer the `initial_logs`
payload is only the last 100 lines, not the full buffer contents. -/
theorem late_subscriber_empty_buffer_no_msg :
    lateSubscriberMsgs [] "s" = [] ∧
    lateSubscriberMsgs (List.replicate 101 "x") "s"
      = [OutMsg.initialLogs (List.replicate 100 "x") "s"] ∧
    List.replicate 100 "x" ≠ List.replicate 101 "x" := by
  decide

/-- C7 (amended): a subscriber attaching while the reader is running
triggers no new process start (no start attempt, the reader entry is
untouched); if the buffer is non-empty it is sent exactly one
`initial_logs` message carrying the last `min 100 (len buffer)` lines of
the buffer (a suffix, original order); if the buffer is empty it is sent
nothing. -/
theorem late_subscriber_no_restart (logs : List String) (src : String)
    (reg : Registry) (r : RegReader) (spawnOk : Bool)
    (hr : reg.reader = some r) (hrun : r.running = true) :
    (regStep reg (RegOp.connect spawnOk)).startAttempts = reg.startAttempts ∧
    (regStep reg (RegOp.connect spawnOk)).reader = some r ∧
    (logs ≠ [] →
      lateSubscriberMsgs logs src = [OutMsg.initialLogs (get_recent_logs logs 100) src] ∧
      (get_recent_logs logs 100).length = min 100 logs.length ∧
      List.IsSuffix (get_recent_logs logs 100) logs) ∧
    (logs = [] → lateSubscriberMsgs logs src = []) := by
  refine ⟨by simp [regStep, hr, hrun], by simp [regStep, hr, hrun], ?_, ?_⟩
  · intro hne
    obtain ⟨hlen, hsuf, hall⟩ := recent_logs_len_suffix logs 100 (by omega)
    have hpos : 0 < (get_recent_logs logs 100).length := by
      rw [hlen]
      have : 0 < logs.length := List.length_pos.mpr hne
      omega
    have hnn : get_recent_logs logs 100 ≠ [] := List.ne_nil_of_length_pos hpos
    exact ⟨by simp [lateSubscriberMsgs, hnn], hlen, hsuf⟩
  · intro hnil
    subst hnil
    rfl

/-- C7 witness: concrete running reader, one-line buffer. -/
theorem late_subscriber_no_restart_witness :
    (Registry.mk (some (RegReader.mk true [])) 1 1 1).reader = some (RegReader.mk true []) ∧
    (RegReader.mk true []).running = true ∧
    (regStep (Registry.mk (some (RegReader.mk true [])) 1 1 1)
      (RegOp.connect true)).startAttempts = 1 ∧
    lateSubscriberMsgs ["a"] "s" = [OutMsg.initialLogs (get_recent_logs ["a"] 100) "s"] := by
  have h := late_subscriber_no_restart ["a"] "s"
    (Registry.mk (some (RegReader.mk true [])) 1 1 1) (RegReader.mk true []) true rfl rfl
  exact ⟨rfl, rfl, h.1, (h.2.2.1 (by decide)).1⟩

/-- C8 counterexample: the inbound keepalive loop answers a client
`ping` with a `pong` message — an outbound message kind that is none of
`initial_logs`, `new_log`, `error`. -/
theorem ping_reply_is_pong :
    inboundReply (some "ping") = some OutMsg.pong ∧
    OutMsg.pong.msgType ∉ (["initial_logs", "new_log", "error"] : List String) := by
  decide

/-- C8 (amended): every message the code sends toward a subscriber
handle — in any `start_reading` run, in the late-subscriber path, and in
the inbound keepalive loop — has one of exactly FOUR kinds:
`initial_logs`, `new_log`, `error`, or `pong` (the reply to a client
ping). -/
theorem outbound_msg_kinds (spawnOk : Bool) (snapEvs : List ReadEvent)
    (contEvs : List ContEvent) (logs0 logsL : List String) (mL cT : Nat)
    (src err srcL : String) (parsed : Option String) :
    (∀ m ∈ (start_reading spawnOk snapEvs contEvs logs0 mL cT src err).msgs,
      m.msgType ∈ (["initial_logs", "new_log", "error", "pong"] : List String)) ∧
    (∀ m ∈ lateSubscriberMsgs logsL srcL,
      m.msgType ∈ (["initial_logs", "new_log", "error", "pong"] : List String)) ∧
    (∀ m, inboundReply parsed = some m →
      m.msgType ∈ (["initial_logs", "new_log", "error", "pong"] : List String)) := by
  have hall : ∀ m : OutMsg,
      m.msgType ∈ (["initial_logs", "new_log", "error", "pong"] : List String) := by
    intro m
    cases m <;> simp [OutMsg.msgType]
  exact ⟨fun m _ => hall m, fun m _ => hall m, fun m _ => hall m⟩

/-- C8 witness: a concrete run with one message, and the pong reply. -/
theorem outbound_msg_kinds_witness :
    OutMsg.initialLogs [] "s" ∈ (start_reading true [] [] [] 5 2 "s" "e").msgs ∧
    (OutMsg.initialLogs [] "s").msgType
      ∈ (["initial_logs", "new_log", "error", "pong"] : List String) ∧
    inboundReply (some "other") = none :=
  ⟨by decide,
   (outbound_msg_kinds true [] [] [] [] 5 2 "s" "e" "s" (some "other")).1
     (OutMsg.initialLogs [] "s") (by decide),
   by decide⟩

/-- C9: when the spawn fails, `start_reading` broadcasts exactly one
`error` message (to whatever subscribers are attached at that moment —
`broadcast_to_source` semantics), ends with `running = false` and the
buffer untouched, and performs no retry (the run produces nothing else);
and at the registry level, any connect that finds the reader not
running (the next 0→1 population transition) performs a fresh start
attempt. -/
theorem spawn_failure_single_error_no_retry (snapEvs : List ReadEvent)
    (contEvs : List ContEvent) (logs0 : List String) (mL cT : Nat) (src err : String) :
    (start_reading false snapEvs contEvs logs0 mL cT src err).msgs
      = [OutMsg.error ("无法读取日志: " ++ err) src] ∧
    (start_reading false snapEvs contEvs logs0 mL cT src err).running = false ∧
    (start_reading false snapEvs contEvs logs0 mL cT src err).logs = logs0 ∧
    (∀ reg r spawnOk, reg.reader = some r → r.running = false →
      (regStep reg (RegOp.connect spawnOk)).startAttempts = reg.startAttempts + 1) := by
  refine ⟨rfl, rfl, rfl, ?_⟩
  intro reg r spawnOk hr hrun
  simp [regStep, hr, hrun]

/-- C9 witness: concrete failed spawn and a concrete idle-reader
registry state on which the next connect attempts a fresh start. -/
theorem spawn_failure_single_error_no_retry_witness :
    (Registry.mk (some (RegReader.mk false [])) 0 1 1).reader
      = some (RegReader.mk false []) ∧
    (RegReader.mk false []).running = false ∧
    (start_reading false [] [] [] 5 2 "s" "boom").msgs
      = [OutMsg.error ("无法读取日志: " ++ "boom") "s"] ∧
    (regStep (Registry.mk (some (RegReader.mk false [])) 0 1 1)
      (RegOp.connect true)).startAttempts = 2 := by
  have h := spawn_failure_single_error_no_retry [] [] [] 5 2 "s" "boom"
  exact ⟨rfl, rfl, h.1, h.2.2.2 (Registry.mk (some (RegReader.mk false [])) 0 1 1)
    (RegReader.mk false []) true rfl rfl⟩

/-- C10: lines that strip to the empty string are skipped in both
phases — the corresponding snapshot-loop and continuous-loop steps leave
the state unchanged and emit nothing — and consequently, starting from a
buffer of non-empty lines, every line in the final buffer, every line of
every `initial_logs` payload, and every `new_log` line is a non-empty
string, in every run. -/
theorem lines_nonempty_invariant (spawnOk : Bool) (snapEvs : List ReadEvent)
    (contEvs : List ContEvent) (logs0 : List String) (mL cT : Nat) (src err : String)
    (h0 : ∀ l ∈ logs0, l ≠ "") :
    (∀ l ∈ (start_reading spawnOk snapEvs contEvs logs0 mL cT src err).logs, l ≠ "") ∧
    (∀ lines src2, OutMsg.initialLogs lines src2
        ∈ (start_reading spawnOk snapEvs contEvs logs0 mL cT src err).msgs →
      ∀ l ∈ lines, l ≠ "") ∧
    (∀ s src2, OutMsg.newLog s src2
        ∈ (start_reading spawnOk snapEvs contEvs logs0 mL cT src err).msgs →
      s ≠ "") ∧
    (∀ s evs2 logs2, strip s = "" →
      contLoop mL cT src (ContEvent.line s :: evs2) logs2
        = contLoop mL cT src evs2 logs2) ∧
    (∀ s evs2 st2, strip s = "" → st2.lineCount < 100 → st2.timeoutCount < 3 →
      snapshotPhase 100 3 (ReadEvent.line s :: evs2) st2
        = snapshotPhase 100 3 evs2 st2) := by
  have hskipC : ∀ s evs2 logs2, strip s = "" →
      contLoop mL cT src (ContEvent.line s :: evs2) logs2
        = contLoop mL cT src evs2 logs2 := by
    intro s evs2 logs2 hs
    simp [contLoop, hs]
  have hskipS : ∀ s evs2 st2, strip s = "" → st2.lineCount < 100 → st2.timeoutCount < 3 →
      snapshotPhase 100 3 (ReadEvent.line s :: evs2) st2 = snapshotPhase 100 3 evs2 st2 := by
    intro s evs2 st2 hs hlc htc
    conv_lhs => rw [snapshotPhase.eq_def]
    simp [hs, Nat.not_le.mpr hlc, Nat.not_le.mpr htc]
  cases spawnOk with
  | false =>
    refine ⟨h0, ?_, ?_, hskipC, hskipS⟩
    · intro lines src2 hm
      simp only [start_reading, Bool.false_eq_true, if_false, List.mem_singleton] at hm
      exact OutMsg.noConfusion hm
    · intro s src2 hm
      simp only [start_reading, Bool.false_eq_true, if_false, List.mem_singleton] at hm
      exact OutMsg.noConfusion hm
  | true =>
    have hsnap := snapshotPhase_nonempty 100 3 snapEvs (snapStart logs0) h0
      (by intro l hmem; exact absurd hmem (List.not_mem_nil l))
    refine ⟨?_, ?_, ?_, hskipC, hskipS⟩
    · exact contLoop_logs_nonempty mL cT src contEvs
        (snapshotPhase 100 3 snapEvs (snapStart logs0)).1.logs hsnap.1
    · intro lines src2 hm
      have hm2 : OutMsg.initialLogs lines src2
          = OutMsg.initialLogs (snapshotPhase 100 3 snapEvs (snapStart logs0)).1.initialLogs
              src ∨
          OutMsg.initialLogs lines src2 ∈ (contLoop mL cT src contEvs
            (snapshotPhase 100 3 snapEvs (snapStart logs0)).1.logs).2 :=
        List.mem_cons.mp hm
      rcases hm2 with hm2 | hm2
      · obtain ⟨hlines, _⟩ := OutMsg.initialLogs.inj hm2
        rw [hlines]
        exact hsnap.2
      · obtain ⟨t, _, hshape⟩ := contLoop_msgs_shape mL cT src contEvs
          (snapshotPhase 100 3 snapEvs (snapStart logs0)).1.logs _ hm2
        exact OutMsg.noConfusion hshape
    · intro s src2 hm
      have hm2 : OutMsg.newLog s src2
          = OutMsg.initialLogs (snapshotPhase 100 3 snapEvs (snapStart logs0)).1.initialLogs
              src ∨
          OutMsg.newLog s src2 ∈ (contLoop mL cT src contEvs
            (snapshotPhase 100 3 snapEvs (snapStart logs0)).1.logs).2 :=
        List.mem_cons.mp hm
      rcases hm2 with hm2 | hm2
      · exact OutMsg.noConfusion hm2
      · obtain ⟨t, ht, hshape⟩ := contLoop_msgs_shape mL cT src contEvs
          (snapshotPhase 100 3 snapEvs (snapStart logs0)).1.logs _ hm2
        obtain ⟨hst, _⟩ := OutMsg.newLog.inj hshape
        rw [hst]
        exact ht

/-- C10 witness: a run over one whitespace-only and one real line from
a buffer holding one non-empty line. -/
theorem lines_nonempty_invariant_witness :
    (∀ l ∈ (["a"] : List String), l ≠ "") ∧
    (∀ l ∈ (start_reading true [ReadEvent.line "   ", ReadEvent.line "b"]
        [ContEvent.line "c"] ["a"] 5 2 "s" "e").logs, l ≠ "") := by
  have h := lines_nonempty_invariant true [ReadEvent.line "   ", ReadEvent.line "b"]
    [ContEvent.line "c"] ["a"] 5 2 "s" "e" (by decide)
  exact ⟨by decide, h.1⟩

end TailExplorer
